import Mathlib

/-!
Shallow embedding of `src/convert.py` (wfmm-localization): name-resolution of
localized item display names.

Modelling conventions:
* An XML localization document (`ET.parse(locale+'/text_weapons.xml')` etc.) is
  a list of entry nodes; each entry node carries a `key` attribute and a list
  of children, each child optionally carrying a `value` attribute.
  `xml_root.find('.//entry[@key="K"]')` is exact first-match lookup on the
  `key` attribute, returning `none` (Python `None`) when absent.
* `list(lookup_result)[1].attrib['value']` (second child's value attribute) is
  `extractValue`; Python's IndexError / KeyError on a malformed entry is the
  `Err.malformedEntry` error of an `Except`.
* The database cursor fetch (`cursor.execute('SELECT * FROM ...'); fetchall()`)
  is `fetchRows` over an in-memory `Catalog` with one row list per region
  table (`items` for eu, `items_ru` for ru). A `fetchall` on a cursor on which
  no query was executed yields no rows (the sqlite3 cursor behaviour).
* Python dict insertion (`mapping[item_id] = v`) is `dictInsert`
  (overwrite-on-duplicate-key).
* Each translation-mapping builder returns its result together with a `Trace`
  counting document parses, catalog fetches (execute calls) and per-row
  resolver invocations, so that fail-fast claims are statable.
-/

/-- A child node of an entry: only its optional `value` attribute matters. -/
structure Node where
  value : Option String
  deriving Repr, DecidableEq

/-- An entry node of a localization document: `key` attribute plus children. -/
structure Entry where
  key : String
  children : List Node
  deriving Repr, DecidableEq

/-- A parsed localization document: the entry nodes, in document order. -/
abbrev Doc := List Entry

/-- One catalog row: `item[0]` is `entity_id`, `item[1]` the internal item
name, `item[2]` the kind string; the mutable title columns follow. -/
structure Row where
  entity_id : Nat
  item_id : String
  kind : String
  title_en : Option String := none
  title_cn : Option String := none
  deriving Repr, DecidableEq

/-- The catalog database: table `items` (eu region) and `items_ru` (ru). -/
structure Catalog where
  eu : List Row
  ru : List Row
  deriving Repr, DecidableEq

/-- Errors raised by the embedded code: the `NotImplementedError` of the
unsupported-selector guards, and the IndexError/KeyError raised when the
second child / `value` attribute of a found entry is missing. -/
inductive Err where
  | notImplemented (locale region : String)
  | malformedEntry
  deriving Repr, DecidableEq

/-- `SUPPORTED_LANGUAGES = ['en', 'cn']` (convert.py line 13). -/
def SUPPORTED_LANGUAGES : List String := ["en", "cn"]

/-- `SUPPORTED_REGIONS = ['eu', 'ru']` (convert.py line 14). -/
def SUPPORTED_REGIONS : List String := ["eu", "ru"]

/-- `xml_root.find('.//entry[@key="K"]')`: first entry whose `key` attribute
equals the query key, `none` when there is none. -/
def findEntry (d : Doc) (k : String) : Option Entry :=
  d.find? (fun e => e.key == k)

/-- `list(lookup_result)[1].attrib['value']`: the `value` attribute of the
second child; `none` models the IndexError (fewer than two children) or
KeyError (no `value` attribute) exception. -/
def extractValue (e : Entry) : Option String :=
  (e.children.get? 1).bind (fun n => n.value)

/-- Occurrence of `sub` as a contiguous subsequence of `s`: `sub` occurs at
the front or somewhere in the tail. -/
def listHasSub (sub : List Char) : List Char → Bool
  | [] => sub.isEmpty
  | c :: rest => sub.isPrefixOf (c :: rest) || listHasSub sub rest

/-- Python `'_shop' in item_name`: occurrence of `_shop` as a contiguous
substring of the character sequence. -/
def containsShop (s : String) : Bool :=
  listHasSub "_shop".toList s.toList

/-- `item_name.split('_')[0]`: the characters before the first underscore
(the whole string when it has no underscore, the empty string when it starts
with one or is empty, exactly as Python's `split`). -/
def shortenedKey (s : String) : String :=
  ⟨s.toList.takeWhile (fun c => c != '_')⟩

/-- The weapon lookup key derived at lines 158-161: `item_name + '_name'`
when `'_shop' in item_name`, else `item_name + '_shop_name'`. -/
def derivedWeaponKey (item_name : String) : String :=
  if containsShop item_name then item_name ++ "_name"
  else item_name ++ "_shop_name"

/-- `get_weapon_name_by_shortened_key` (convert.py lines 60-74): look up
`key + '_shop_name'`; return `''` on a miss, the second child's `value`
attribute on a hit (raising on a malformed entry). -/
def get_weapon_name_by_shortened_key (d : Doc) (key : String) : Except Err String :=
  match findEntry d (key ++ "_shop_name") with
  | none => .ok ""
  | some e =>
    match extractValue e with
    | none => .error .malformedEntry
    | some v => .ok v

/-- Loop body of `get_camouflage_translation_mapping` (lines 108-124) for one
row's `item_name`: look up `item_name + '_name'`; on a miss the 3-element
`[item_name, '', '']`; on a hit the 2-element
`[item_name, base + ' ' + value]` where `base` is the shortened-key lookup. -/
def camoResolveRow (d : Doc) (item_name : String) : Except Err (List String) :=
  match findEntry d (item_name ++ "_name") with
  | none => .ok [item_name, "", ""]
  | some e =>
    match get_weapon_name_by_shortened_key d (shortenedKey item_name) with
    | .error er => .error er
    | .ok b =>
      match extractValue e with
      | none => .error .malformedEntry
      | some v => .ok [item_name, b ++ " " ++ v]

/-- Loop body of `get_weapon_translation_mapping` (lines 155-168) for one
row's `item_name`, instrumented: the result together with the list of keys
looked up in the weapons document. The key is `item_name + '_name'` when
`'_shop' in item_name`, else `item_name + '_shop_name'`; a miss yields
`[item_name, '']`. -/
def weaponResolveRowI (d : Doc) (item_name : String) :
    Except Err (List String) × List String :=
  let key := derivedWeaponKey item_name
  match findEntry d key with
  | none => (.ok [item_name, ""], [key])
  | some e =>
    match extractValue e with
    | none => (.error .malformedEntry, [key])
    | some v => (.ok [item_name, v], [key])

/-- The uninstrumented weapon per-row resolver. -/
def weaponResolveRow (d : Doc) (item_name : String) : Except Err (List String) :=
  (weaponResolveRowI d item_name).1

/-- Loop body of `get_body_skin_translation_mapping` (lines 199-209): key is
`'ui_armor_' + item_name + '_name'`; a miss yields `[item_name, '']`. -/
def bodySkinResolveRow (d : Doc) (item_name : String) : Except Err (List String) :=
  match findEntry d ("ui_armor_" ++ item_name ++ "_name") with
  | none => .ok [item_name, ""]
  | some e =>
    match extractValue e with
    | none => .error .malformedEntry
    | some v => .ok [item_name, v]

/-- Loop body of `get_gear_translation_mapping` (lines 241-252): key is
`'ui_armor_' + item_name + '_name'`; a miss yields `[item_name, '']`. -/
def gearResolveRow (d : Doc) (item_name : String) : Except Err (List String) :=
  match findEntry d ("ui_armor_" ++ item_name ++ "_name") with
  | none => .ok [item_name, ""]
  | some e =>
    match extractValue e with
    | none => .error .malformedEntry
    | some v => .ok [item_name, v]

/-- The translation mapping built by each builder: `entity_id` to result
list, with Python-dict insertion semantics. -/
abbrev Mapping := List (Nat × List String)

/-- Python dict assignment `mapping[k] = v`: overwrite when the key is
present, append otherwise. -/
def dictInsert (m : Mapping) (k : Nat) (v : List String) : Mapping :=
  if m.any (fun p => p.1 == k) then
    m.map (fun p => if p.1 == k then (k, v) else p)
  else
    m ++ [(k, v)]

/-- Whether `k` is a key of the mapping. -/
def containsKey (m : Mapping) (k : Nat) : Bool :=
  m.any (fun p => p.1 == k)

/-- `SELECT * FROM items/items_ru WHERE kind = '<kind>'` followed by
`fetchall()`: the rows of the region's table with the given kind; for a
region outside eu/ru no query is executed and `fetchall` yields no rows. -/
def fetchRows (cat : Catalog) (kind region : String) : List Row :=
  if region == "eu" then cat.eu.filter (fun r => r.kind == kind)
  else if region == "ru" then cat.ru.filter (fun r => r.kind == kind)
  else []

/-- The `for item in items:` loop shared by the four builders, parameterised
by the per-row resolver: build the mapping keyed by `entity_id`, abort on a
raised error, and count resolver invocations. -/
def buildLoop (resolve : String → Except Err (List String)) :
    List Row → Mapping → Except Err Mapping × Nat
  | [], m => (.ok m, 0)
  | r :: rs, m =>
    match resolve r.item_id with
    | .error e => (.error e, 1)
    | .ok v =>
      let p := buildLoop resolve rs (dictInsert m r.entity_id v)
      (p.1, p.2 + 1)

/-- Instrumentation of a builder call: number of `ET.parse` calls, of catalog
queries executed, and of per-row resolver invocations. -/
structure Trace where
  parses : Nat
  fetches : Nat
  resolves : Nat
  deriving Repr, DecidableEq

/-- `get_camouflage_translation_mapping` (lines 77-125): guard, parse
`locale+'/text_weapons.xml'`, fetch the camouflage rows of the region's
table, resolve each row. `docs` maps a file path to its parsed document. -/
def get_camouflage_translation_mapping (docs : String → Doc) (cat : Catalog)
    (locale region : String) : Except Err Mapping × Trace :=
  if locale ∉ SUPPORTED_LANGUAGES ∨ region ∉ SUPPORTED_REGIONS then
    (.error (.notImplemented locale region), ⟨0, 0, 0⟩)
  else
    let d := docs (locale ++ "/text_weapons.xml")
    let items := fetchRows cat "camouflage" region
    let p := buildLoop (camoResolveRow d) items []
    (p.1, ⟨1, 1, p.2⟩)

/-- `get_weapon_translation_mapping` (lines 128-169): guard, parse
`locale+'/text_weapons.xml'`, fetch the weapon rows, resolve each row. -/
def get_weapon_translation_mapping (docs : String → Doc) (cat : Catalog)
    (locale region : String) : Except Err Mapping × Trace :=
  if locale ∉ SUPPORTED_LANGUAGES ∨ region ∉ SUPPORTED_REGIONS then
    (.error (.notImplemented locale region), ⟨0, 0, 0⟩)
  else
    let d := docs (locale ++ "/text_weapons.xml")
    let items := fetchRows cat "weapon" region
    let p := buildLoop (weaponResolveRow d) items []
    (p.1, ⟨1, 1, p.2⟩)

/-- `get_body_skin_translation_mapping` (lines 172-210): guard, parse
`locale+'/text_armors.xml'`, fetch the appearance rows, resolve each row. -/
def get_body_skin_translation_mapping (docs : String → Doc) (cat : Catalog)
    (locale region : String) : Except Err Mapping × Trace :=
  if locale ∉ SUPPORTED_LANGUAGES ∨ region ∉ SUPPORTED_REGIONS then
    (.error (.notImplemented locale region), ⟨0, 0, 0⟩)
  else
    let d := docs (locale ++ "/text_armors.xml")
    let items := fetchRows cat "appearance" region
    let p := buildLoop (bodySkinResolveRow d) items []
    (p.1, ⟨1, 1, p.2⟩)

/-- `get_gear_translation_mapping` (lines 213-253). Unlike the other three
builders, its guard checks only the locale and, instead of raising, prints a
message and returns the (still empty) mapping; there is no region guard, so
an unsupported region reaches the parse and the fetch of an unexecuted
cursor. -/
def get_gear_translation_mapping (docs : String → Doc) (cat : Catalog)
    (locale region : String) : Except Err Mapping × Trace :=
  if locale ∉ SUPPORTED_LANGUAGES then
    (.ok [], ⟨0, 0, 0⟩)
  else
    let d := docs (locale ++ "/text_armors.xml")
    let items := fetchRows cat "equipment" region
    let p := buildLoop (gearResolveRow d) items []
    (p.1, ⟨1, if region == "eu" ∨ region == "ru" then 1 else 0, p.2⟩)

/-- State-passing form of the weapon per-row resolution (lines 155-168): the
document is threaded through the lookup, which reads it and leaves it as it
found it, so that non-mutation of the Localization Store is statable. -/
def weaponResolveRowS (d : Doc) (item_name : String) :
    Except Err (List String) × Doc :=
  let key := derivedWeaponKey item_name
  match findEntry d key with
  | none => (.ok [item_name, ""], d)
  | some e =>
    match extractValue e with
    | none => (.error .malformedEntry, d)
    | some v => (.ok [item_name, v], d)

/-- State-passing form of the `for item in items:` loop of
`get_weapon_translation_mapping`: the document is threaded row by row and the
final document state is returned with the result. -/
def weaponLoopS : Doc → List Row → Mapping → Except Err Mapping × Doc
  | d, [], m => (.ok m, d)
  | d, r :: rs, m =>
    let p := weaponResolveRowS d r.item_id
    match p.1 with
    | .error e => (.error e, p.2)
    | .ok v => weaponLoopS p.2 rs (dictInsert m r.entity_id v)

/-- Which runtime cursor type `type(cursor)` dispatches on in
`update_item_translation`: `sqlite3.Cursor`, `psycopg2.extensions.cursor`, or
anything else. -/
inductive CursorKind where
  | sqlite3
  | psycopg2
  | other
  deriving Repr, DecidableEq

/-- One parameterized UPDATE statement handed to `cursor.execute(sql, params)`:
target table and column from the SQL text, placeholder style of the backend,
and the bound parameters. -/
structure Stmt where
  table : String
  column : String
  placeholder : String
  translation : String
  entity_id : Nat
  deriving Repr, DecidableEq

/-- `update_item_translation` (lines 256-293): guard on locale and region,
then dispatch on the runtime type of the cursor; sqlite3 and psycopg2 cursors
each execute one parameterized UPDATE (with `?` resp. `%s` placeholders), any
other cursor type falls through every branch and executes nothing. The result
is the list of statements executed. -/
def update_item_translation (ck : CursorKind) (entity_id : Nat)
    (translation locale region : String) : Except Err (List Stmt) :=
  if locale ∉ SUPPORTED_LANGUAGES ∨ region ∉ SUPPORTED_REGIONS then
    .error (.notImplemented locale region)
  else
    match ck with
    | .sqlite3 =>
      if region == "eu" then
        if locale == "en" then .ok [⟨"items", "title_en", "?", translation, entity_id⟩]
        else if locale == "cn" then .ok [⟨"items", "title_cn", "?", translation, entity_id⟩]
        else .ok []
      else if region == "ru" then
        if locale == "en" then .ok [⟨"items_ru", "title_en", "?", translation, entity_id⟩]
        else if locale == "cn" then .ok [⟨"items_ru", "title_cn", "?", translation, entity_id⟩]
        else .ok []
      else .ok []
    | .psycopg2 =>
      if region == "eu" then
        if locale == "en" then .ok [⟨"items", "title_en", "%s", translation, entity_id⟩]
        else if locale == "cn" then .ok [⟨"items", "title_cn", "%s", translation, entity_id⟩]
        else .ok []
      else if region == "ru" then
        if locale == "en" then .ok [⟨"items_ru", "title_en", "%s", translation, entity_id⟩]
        else if locale == "cn" then .ok [⟨"items_ru", "title_cn", "%s", translation, entity_id⟩]
        else .ok []
      else .ok []
    | .other => .ok []

/-- Effect of one UPDATE statement on a row (set the named title column when
the `entity_id` matches). -/
def applyStmtRow (s : Stmt) (r : Row) : Row :=
  if r.entity_id == s.entity_id then
    if s.column == "title_en" then { r with title_en := some s.translation }
    else if s.column == "title_cn" then { r with title_cn := some s.translation }
    else r
  else r

/-- Effect of one UPDATE statement on the catalog: update the matching rows
of the target table. -/
def applyStmt (cat : Catalog) (s : Stmt) : Catalog :=
  if s.table == "items" then { cat with eu := cat.eu.map (applyStmtRow s) }
  else if s.table == "items_ru" then { cat with ru := cat.ru.map (applyStmtRow s) }
  else cat

/-- Effect of a sequence of executed statements on the catalog. -/
def applyStmts (cat : Catalog) (ss : List Stmt) : Catalog :=
  ss.foldl applyStmt cat

/-- Well-formedness of a document: every entry node has at least two children
and the second child carries a `value` attribute (so every entry a derived
key can match is well-formed). -/
def WellFormedDoc (d : Doc) : Prop :=
  ∀ e ∈ d, (extractValue e).isSome

instance (d : Doc) : Decidable (WellFormedDoc d) := by
  unfold WellFormedDoc; infer_instance

/-- A small English weapons document: the display name of the sr47 and of
its jungle camouflage, each entry with a value-bearing second child. -/
def enWeaponsDoc : Doc :=
  [⟨"sr47_shop_name", [⟨none⟩, ⟨some "SR-47"⟩]⟩,
   ⟨"sr47_jungle_name", [⟨none⟩, ⟨some "Jungle"⟩]⟩]

/-- A catalog whose eu table holds one camouflage row. -/
def sampleCatalog : Catalog :=
  ⟨[⟨101, "sr47_jungle", "camouflage", none, none⟩], []⟩

/-- A document environment serving `enWeaponsDoc` for the English weapons
file and an empty document for every other path. -/
def enDocs : String → Doc :=
  fun path => if path == "en/text_weapons.xml" then enWeaponsDoc else []

/-- C1: camouflage resolution is composite: the base key is the piece of the
item name before the first underscore suffixed `_shop_name`, the variant key
is the item name plus `_name`, both looked up in the weapons document; when
the variant lookup hits (with value v) the result is the 2-element
`[item_name, base_result ++ " " ++ v]`, where the base lookup contributes
`""` on a miss (a base miss does not abort resolution); when the variant
lookup misses the result is the 3-element `[item_name, "", ""]`, whatever
the base lookup would have given. -/
theorem camo_composite_resolution (d : Doc) (name : String) :
    (findEntry d (name ++ "_name") = none →
      camoResolveRow d name = .ok [name, "", ""]) ∧
    (∀ e b v, findEntry d (name ++ "_name") = some e →
      get_weapon_name_by_shortened_key d (shortenedKey name) = .ok b →
      extractValue e = some v →
      camoResolveRow d name = .ok [name, b ++ " " ++ v]) ∧
    (findEntry d (shortenedKey name ++ "_shop_name") = none →
      get_weapon_name_by_shortened_key d (shortenedKey name) = .ok "") := by
  refine ⟨?_, ?_, ?_⟩
  · intro h
    simp [camoResolveRow, h]
  · intro e b v he hb hv
    simp [camoResolveRow, he, hb, hv]
  · intro h
    simp [get_weapon_name_by_shortened_key, h]

/-- Concrete instantiation of `camo_composite_resolution`: the sr47 jungle
camouflage hit, a variant miss, and a base miss, on the sample document. -/
theorem camo_composite_resolution_witness :
    camoResolveRow enWeaponsDoc "sr47_jungle" = .ok ["sr47_jungle", "SR-47 Jungle"] ∧
    camoResolveRow enWeaponsDoc "mp5_desert" = .ok ["mp5_desert", "", ""] ∧
    get_weapon_name_by_shortened_key enWeaponsDoc (shortenedKey "mp5_desert") = .ok "" := by
  refine ⟨?_, ?_, ?_⟩
  · exact (camo_composite_resolution enWeaponsDoc "sr47_jungle").2.1
      ⟨"sr47_jungle_name", [⟨none⟩, ⟨some "Jungle"⟩]⟩ "SR-47" "Jungle"
      (by decide) rfl (by decide)
  · exact (camo_composite_resolution enWeaponsDoc "mp5_desert").1 (by decide)
  · exact (camo_composite_resolution enWeaponsDoc "mp5_desert").2.2 (by decide)

/-- C2: for a weapon row, the lookup key is `item_name + '_name'` when the
item name contains `_shop`, else `item_name + '_shop_name'`; exactly one
lookup is performed in the weapons document (the instrumented key list is the
singleton of that derived key), and a miss yields `[item_name, ""]`. -/
theorem weapon_key_single_lookup (d : Doc) (name : String) :
    ((weaponResolveRowI d name).2 = [derivedWeaponKey name]) ∧
    (derivedWeaponKey name =
      if containsShop name then name ++ "_name" else name ++ "_shop_name") ∧
    (findEntry d (derivedWeaponKey name) = none →
      weaponResolveRow d name = .ok [name, ""]) ∧
    (∀ e v, findEntry d (derivedWeaponKey name) = some e →
      extractValue e = some v →
      weaponResolveRow d name = .ok [name, v]) := by
  refine ⟨?_, rfl, ?_, ?_⟩
  · simp only [weaponResolveRowI]
    cases h : findEntry d (derivedWeaponKey name) with
    | none => simp [h]
    | some e =>
      cases hv : extractValue e with
      | none => simp [h, hv]
      | some v => simp [h, hv]
  · intro h
    simp [weaponResolveRow, weaponResolveRowI, h]
  · intro e v he hv
    simp [weaponResolveRow, weaponResolveRowI, he, hv]

/-- Concrete instantiation of `weapon_key_single_lookup`: a single lookup at
`sr47_shop_name` for an item name without `_shop`, a hit, and a miss for an
absent weapon. -/
theorem weapon_key_single_lookup_witness :
    (weaponResolveRowI enWeaponsDoc "sr47").2 = [derivedWeaponKey "sr47"] ∧
    weaponResolveRow enWeaponsDoc "sr47" = .ok ["sr47", "SR-47"] ∧
    weaponResolveRow enWeaponsDoc "mp5" = .ok ["mp5", ""] := by
  refine ⟨(weapon_key_single_lookup enWeaponsDoc "sr47").1, ?_, ?_⟩
  · exact (weapon_key_single_lookup enWeaponsDoc "sr47").2.2.2
      ⟨"sr47_shop_name", [⟨none⟩, ⟨some "SR-47"⟩]⟩ "SR-47" (by decide) (by decide)
  · exact (weapon_key_single_lookup enWeaponsDoc "mp5").2.2.1 (by decide)

/-- C4: the gear per-row resolver and the body-skin (appearance) per-row
resolver are extensionally equal; both look up
`'ui_armor_' + item_name + '_name'` in the armor document and yield
`[item_name, value]` on a hit and `[item_name, ""]` on a miss. -/
theorem gear_bodyskin_identical (d : Doc) (name : String) :
    gearResolveRow d name = bodySkinResolveRow d name ∧
    (findEntry d ("ui_armor_" ++ name ++ "_name") = none →
      gearResolveRow d name = .ok [name, ""]) ∧
    (∀ e v, findEntry d ("ui_armor_" ++ name ++ "_name") = some e →
      extractValue e = some v →
      gearResolveRow d name = .ok [name, v]) := by
  refine ⟨rfl, ?_, ?_⟩
  · intro h
    simp [gearResolveRow, h]
  · intro e v he hv
    simp [gearResolveRow, he, hv]

/-- Concrete instantiation of `gear_bodyskin_identical` on a one-entry armor
document: equality of the two resolvers, a hit and a miss. -/
theorem gear_bodyskin_identical_witness :
    gearResolveRow [⟨"ui_armor_vest_a_name", [⟨none⟩, ⟨some "Tactical Vest"⟩]⟩] "vest_a" =
      bodySkinResolveRow [⟨"ui_armor_vest_a_name", [⟨none⟩, ⟨some "Tactical Vest"⟩]⟩] "vest_a" ∧
    gearResolveRow [⟨"ui_armor_vest_a_name", [⟨none⟩, ⟨some "Tactical Vest"⟩]⟩] "vest_a" =
      .ok ["vest_a", "Tactical Vest"] ∧
    gearResolveRow [⟨"ui_armor_vest_a_name", [⟨none⟩, ⟨some "Tactical Vest"⟩]⟩] "helmet_x" =
      .ok ["helmet_x", ""] := by
  refine ⟨(gear_bodyskin_identical _ "vest_a").1, ?_, ?_⟩
  · exact (gear_bodyskin_identical _ "vest_a").2.2
      ⟨"ui_armor_vest_a_name", [⟨none⟩, ⟨some "Tactical Vest"⟩]⟩ "Tactical Vest"
      (by decide) (by decide)
  · exact (gear_bodyskin_identical _ "helmet_x").2.1 (by decide)

/-- C7: localization lookup is exact key matching only: a found entry is an
entry of the document whose key equals the queried key exactly, and a key
matching no entry yields the distinguished `none` result (the lookup is a
total function into an option, it cannot raise). -/
theorem lookup_exact_match (d : Doc) (k : String) :
    (∀ e, findEntry d k = some e → e ∈ d ∧ e.key = k) ∧
    ((∀ e ∈ d, e.key ≠ k) → findEntry d k = none) := by
  constructor
  · intro e he
    refine ⟨List.mem_of_find?_eq_some he, ?_⟩
    have h2 := List.find?_some he
    simpa using h2
  · intro h
    simp only [findEntry, List.find?_eq_none]
    intro e hme
    simpa using h e hme

/-- Concrete instantiation of `lookup_exact_match`: the found entry for
`sr47_shop_name` carries exactly that key, and an absent key yields `none`. -/
theorem lookup_exact_match_witness :
    ((⟨"sr47_shop_name", [⟨none⟩, ⟨some "SR-47"⟩]⟩ : Entry) ∈ enWeaponsDoc ∧
      (Entry.mk "sr47_shop_name" [⟨none⟩, ⟨some "SR-47"⟩]).key = "sr47_shop_name") ∧
    findEntry enWeaponsDoc "absent_key" = none := by
  constructor
  · exact (lookup_exact_match enWeaponsDoc "sr47_shop_name").1
      ⟨"sr47_shop_name", [⟨none⟩, ⟨some "SR-47"⟩]⟩ (by decide)
  · exact (lookup_exact_match enWeaponsDoc "absent_key").2 (by decide)

/-- C8: end-to-end camouflage scenario: with a catalog row
(entity_id 101, item_id "sr47_jungle", kind "camouflage") and an English
weapons document with `sr47_shop_name -> "SR-47"` and
`sr47_jungle_name -> "Jungle"`, the mapping stores `"SR-47 Jungle"` as the
display name under entity_id 101. -/
theorem camo_end_to_end_scenario :
    get_camouflage_translation_mapping enDocs sampleCatalog "en" "eu" =
      (.ok [(101, ["sr47_jungle", "SR-47 Jungle"])], ⟨1, 1, 1⟩) := rfl

/-- C3 counterexample: the gear (equipment) entry point called with the
unsupported locale "fr" does not raise the unsupported-selector error: it
returns the empty mapping with a success result (the trace counts are zero,
but no error of any kind is produced, contradicting the claim that every
entry point raises). -/
theorem gear_unsupported_locale_no_raise :
    ("fr" : String) ∉ SUPPORTED_LANGUAGES ∧
    get_gear_translation_mapping (fun _ => []) ⟨[], []⟩ "fr" "eu" =
      (.ok [], ⟨0, 0, 0⟩) := by
  exact ⟨by decide, rfl⟩

/-- C3 amended: the weapon, camouflage and appearance entry points raise the
unsupported-selector error with zero parse and fetch counts whenever the
locale is outside en/cn or the region outside eu/ru; the gear entry point
instead guards only the locale and does not raise: on an unsupported locale
it returns an empty mapping with zero parse and fetch counts. -/
theorem guard_fail_fast_amended (docs : String → Doc) (cat : Catalog)
    (locale region : String)
    (h : locale ∉ SUPPORTED_LANGUAGES ∨ region ∉ SUPPORTED_REGIONS) :
    get_camouflage_translation_mapping docs cat locale region =
      (.error (.notImplemented locale region), ⟨0, 0, 0⟩) ∧
    get_weapon_translation_mapping docs cat locale region =
      (.error (.notImplemented locale region), ⟨0, 0, 0⟩) ∧
    get_body_skin_translation_mapping docs cat locale region =
      (.error (.notImplemented locale region), ⟨0, 0, 0⟩) ∧
    (locale ∉ SUPPORTED_LANGUAGES →
      get_gear_translation_mapping docs cat locale region = (.ok [], ⟨0, 0, 0⟩)) := by
  refine ⟨?_, ?_, ?_, ?_⟩
  · rw [get_camouflage_translation_mapping, if_pos h]
  · rw [get_weapon_translation_mapping, if_pos h]
  · rw [get_body_skin_translation_mapping, if_pos h]
  · intro hl
    rw [get_gear_translation_mapping, if_pos hl]

/-- Concrete instantiation of `guard_fail_fast_amended` at locale "fr",
region "eu". -/
theorem guard_fail_fast_amended_witness :
    get_camouflage_translation_mapping (fun _ => []) ⟨[], []⟩ "fr" "eu" =
      (.error (.notImplemented "fr" "eu"), ⟨0, 0, 0⟩) ∧
    get_weapon_translation_mapping (fun _ => []) ⟨[], []⟩ "fr" "eu" =
      (.error (.notImplemented "fr" "eu"), ⟨0, 0, 0⟩) ∧
    get_body_skin_translation_mapping (fun _ => []) ⟨[], []⟩ "fr" "eu" =
      (.error (.notImplemented "fr" "eu"), ⟨0, 0, 0⟩) ∧
    get_gear_translation_mapping (fun _ => []) ⟨[], []⟩ "fr" "eu" =
      (.ok [], ⟨0, 0, 0⟩) := by
  have h := guard_fail_fast_amended (fun _ => []) ⟨[], []⟩ "fr" "eu" (by decide)
  exact ⟨h.1, h.2.1, h.2.2.1, h.2.2.2 (by decide)⟩

/-- The state-passing weapon per-row resolution returns the document exactly
as it received it. -/
theorem weaponResolveRowS_doc (d : Doc) (name : String) :
    (weaponResolveRowS d name).2 = d := by
  simp only [weaponResolveRowS]
  cases h : findEntry d (derivedWeaponKey name) with
  | none => rfl
  | some e =>
    cases hv : extractValue e with
    | none => simp [hv]
    | some v => simp [hv]

/-- The state-passing weapon resolution loop returns the document exactly as
it received it. -/
theorem weaponLoopS_doc (rows : List Row) :
    ∀ (d : Doc) (m : Mapping), (weaponLoopS d rows m).2 = d := by
  induction rows with
  | nil => intro d m; rfl
  | cons r rs ih =>
    intro d m
    simp only [weaponLoopS]
    have hp := weaponResolveRowS_doc d r.item_id
    split
    · exact hp
    · rw [hp]
      exact ih d _

/-- C6: weapon resolution is idempotent and read-only: a weapon resolution
pass (over any parsed weapons document, fetched rows and accumulated
mapping, hence for every item_id, locale and region) leaves the
localization document it queries unchanged, and running the same pass a
second time over the document state left by the first yields the identical
output. -/
theorem weapon_resolution_idempotent_readonly (d : Doc) (rows : List Row)
    (m : Mapping) :
    (weaponLoopS d rows m).2 = d ∧
    weaponLoopS (weaponLoopS d rows m).2 rows m = weaponLoopS d rows m := by
  refine ⟨weaponLoopS_doc rows d m, ?_⟩
  rw [weaponLoopS_doc rows d m]

/-- In a well-formed document, every found entry has an extractable value. -/
theorem wf_findEntry_extract {d : Doc} (wf : WellFormedDoc d) {k : String}
    {e : Entry} (h : findEntry d k = some e) : ∃ v, extractValue e = some v := by
  have hm : e ∈ d := List.mem_of_find?_eq_some h
  exact Option.isSome_iff_exists.mp (wf e hm)

/-- Under well-formedness the shortened-key lookup never raises. -/
theorem wf_shortened_ok {d : Doc} (wf : WellFormedDoc d) (key : String) :
    ∃ v, get_weapon_name_by_shortened_key d key = .ok v := by
  cases h : findEntry d (key ++ "_shop_name") with
  | none => exact ⟨"", by simp [get_weapon_name_by_shortened_key, h]⟩
  | some e =>
    obtain ⟨v, hv⟩ := wf_findEntry_extract wf h
    exact ⟨v, by simp [get_weapon_name_by_shortened_key, h, hv]⟩

/-- C9: extracting a localized value from a found entry reads the `value`
attribute of the entry's second child; when every entry of the document has
at least two children and a value-bearing second child, the extraction is
total in every resolution path, so every per-row resolver returns a result
instead of raising; without that precondition a hit on a malformed entry
raises (here: an armor entry with no children) rather than producing a
sentinel. -/
theorem extraction_total_wellformed :
    (∀ d : Doc, WellFormedDoc d → ∀ name : String,
      (∃ v, get_weapon_name_by_shortened_key d name = .ok v) ∧
      (∃ v, camoResolveRow d name = .ok v) ∧
      (∃ v, weaponResolveRow d name = .ok v) ∧
      (∃ v, bodySkinResolveRow d name = .ok v) ∧
      (∃ v, gearResolveRow d name = .ok v)) ∧
    bodySkinResolveRow [⟨"ui_armor_helm_name", []⟩] "helm" =
      .error .malformedEntry := by
  constructor
  · intro d wf name
    refine ⟨wf_shortened_ok wf name, ?_, ?_, ?_, ?_⟩
    · cases h : findEntry d (name ++ "_name") with
      | none => exact ⟨[name, "", ""], by simp [camoResolveRow, h]⟩
      | some e =>
        obtain ⟨b, hb⟩ := wf_shortened_ok wf (shortenedKey name)
        obtain ⟨v, hv⟩ := wf_findEntry_extract wf h
        exact ⟨[name, b ++ " " ++ v], by simp [camoResolveRow, h, hb, hv]⟩
    · cases h : findEntry d (derivedWeaponKey name) with
      | none => exact ⟨[name, ""], by simp [weaponResolveRow, weaponResolveRowI, h]⟩
      | some e =>
        obtain ⟨v, hv⟩ := wf_findEntry_extract wf h
        exact ⟨[name, v], by simp [weaponResolveRow, weaponResolveRowI, h, hv]⟩
    · cases h : findEntry d ("ui_armor_" ++ name ++ "_name") with
      | none => exact ⟨[name, ""], by simp [bodySkinResolveRow, h]⟩
      | some e =>
        obtain ⟨v, hv⟩ := wf_findEntry_extract wf h
        exact ⟨[name, v], by simp [bodySkinResolveRow, h, hv]⟩
    · cases h : findEntry d ("ui_armor_" ++ name ++ "_name") with
      | none => exact ⟨[name, ""], by simp [gearResolveRow, h]⟩
      | some e =>
        obtain ⟨v, hv⟩ := wf_findEntry_extract wf h
        exact ⟨[name, v], by simp [gearResolveRow, h, hv]⟩
  · rfl

/-- Concrete instantiation of `extraction_total_wellformed` on the
well-formed sample document. -/
theorem extraction_total_wellformed_witness :
    ∃ v, camoResolveRow enWeaponsDoc "sr47_jungle" = .ok v :=
  (extraction_total_wellformed.1 enWeaponsDoc (by decide) "sr47_jungle").2.1

/-- C10: the catalog writer dispatches on the runtime type of the cursor:
for every locale and region passing the guard, a sqlite3 cursor and a
psycopg2 cursor each execute exactly one parameterized UPDATE statement
(with their backend's placeholder and the translation and entity_id bound as
parameters), while any other cursor type executes no statement at all — no
error is raised and applying the (empty) executed statements leaves any
catalog unchanged. -/
theorem writer_cursor_dispatch (e : Nat) (t locale region : String)
    (hl : locale ∈ SUPPORTED_LANGUAGES) (hr : region ∈ SUPPORTED_REGIONS) :
    (∃ s : Stmt, update_item_translation .sqlite3 e t locale region = .ok [s] ∧
      s.placeholder = "?" ∧ s.translation = t ∧ s.entity_id = e) ∧
    (∃ s : Stmt, update_item_translation .psycopg2 e t locale region = .ok [s] ∧
      s.placeholder = "%s" ∧ s.translation = t ∧ s.entity_id = e) ∧
    (update_item_translation .other e t locale region = .ok [] ∧
      ∀ cat : Catalog, applyStmts cat [] = cat) := by
  have hl' : locale = "en" ∨ locale = "cn" := by simpa [SUPPORTED_LANGUAGES] using hl
  have hr' : region = "eu" ∨ region = "ru" := by simpa [SUPPORTED_REGIONS] using hr
  rcases hl' with rfl | rfl <;> rcases hr' with rfl | rfl <;>
    refine ⟨⟨_, rfl, rfl, rfl, rfl⟩, ⟨_, rfl, rfl, rfl, rfl⟩, rfl, fun cat => rfl⟩

/-- Concrete instantiation of `writer_cursor_dispatch` at entity 7,
translation "SR-47", locale "en", region "eu". -/
theorem writer_cursor_dispatch_witness :
    (∃ s : Stmt, update_item_translation .sqlite3 7 "SR-47" "en" "eu" = .ok [s] ∧
      s.placeholder = "?" ∧ s.translation = "SR-47" ∧ s.entity_id = 7) ∧
    (∃ s : Stmt, update_item_translation .psycopg2 7 "SR-47" "en" "eu" = .ok [s] ∧
      s.placeholder = "%s" ∧ s.translation = "SR-47" ∧ s.entity_id = 7) ∧
    (update_item_translation .other 7 "SR-47" "en" "eu" = .ok [] ∧
      ∀ cat : Catalog, applyStmts cat [] = cat) :=
  writer_cursor_dispatch 7 "SR-47" "en" "eu" (by decide) (by decide)

/-- The keys of a mapping after a Python-dict insertion are the inserted key
together with the keys already present. -/
theorem containsKey_dictInsert (m : Mapping) (k : Nat) (v : List String)
    (k' : Nat) :
    containsKey (dictInsert m k v) k' = true ↔
      (k' = k ∨ containsKey m k' = true) := by
  unfold containsKey dictInsert
  by_cases h : m.any (fun p => p.1 == k) = true
  · rw [if_pos h, List.any_map]
    constructor
    · intro hq
      obtain ⟨p, hp, hq⟩ := List.any_eq_true.mp hq
      by_cases hpk : p.1 = k
      · left
        have hkk : (k == k') = true := by simpa [Function.comp, hpk] using hq
        exact (beq_iff_eq.mp hkk).symm
      · right
        refine List.any_eq_true.mpr ⟨p, hp, ?_⟩
        simpa [Function.comp, hpk] using hq
    · rintro (rfl | hck)
      · obtain ⟨p, hp, hpk⟩ := List.any_eq_true.mp h
        refine List.any_eq_true.mpr ⟨p, hp, ?_⟩
        simp [Function.comp, hpk]
      · obtain ⟨p, hp, hpk'⟩ := List.any_eq_true.mp hck
        have hk' : p.1 = k' := beq_iff_eq.mp hpk'
        refine List.any_eq_true.mpr ⟨p, hp, ?_⟩
        by_cases hpk : p.1 = k
        · have hkk : k = k' := by rw [← hpk, hk']
          simp [Function.comp, hpk, hkk]
        · have hkk : ¬(k' = k) := fun hc => hpk (hk'.trans hc)
          simp [Function.comp, hk', hkk]
  · rw [if_neg h, List.any_append]
    simp only [List.any_cons, List.any_nil, Bool.or_false, Bool.or_eq_true]
    constructor
    · rintro (hm | hkk)
      · exact Or.inr hm
      · exact Or.inl (beq_iff_eq.mp hkk).symm
    · rintro (rfl | hm)
      · right
        simp
      · exact Or.inl hm

/-- Invariant of the shared builder loop: when it succeeds, the keys of the
produced mapping are the `entity_id`s of the processed rows together with
the keys of the accumulator, and the per-row resolver was invoked once per
row. -/
theorem buildLoop_ok_spec (resolve : String → Except Err (List String)) :
    ∀ (rows : List Row) (m res : Mapping) (n : Nat),
      buildLoop resolve rows m = (.ok res, n) →
      (∀ k, containsKey res k = true ↔
        (k ∈ rows.map Row.entity_id ∨ containsKey m k = true)) ∧
      n = rows.length := by
  intro rows
  induction rows with
  | nil =>
    intro m res n h
    simp only [buildLoop, Prod.mk.injEq, Except.ok.injEq] at h
    obtain ⟨rfl, rfl⟩ := h
    simp
  | cons r rs ih =>
    intro m res n h
    simp only [buildLoop] at h
    split at h
    · simp at h
    · rename_i v hv
      injection h with h1 h2
      have heq : buildLoop resolve rs (dictInsert m r.entity_id v) =
          (.ok res, (buildLoop resolve rs (dictInsert m r.entity_id v)).2) := by
        rw [← h1]
      obtain ⟨hkeys, hlen⟩ := ih (dictInsert m r.entity_id v) res _ heq
      constructor
      · intro k
        rw [hkeys k, containsKey_dictInsert]
        simp only [List.map_cons, List.mem_cons]
        tauto
      · rw [← h2, hlen]
        simp

/-- C5: for every category, for every supported locale and region, a builder
that returns a mapping returns one whose key set is exactly the set of
`entity_id`s of the rows fetched for that kind and region (misses included,
nothing dropped), with exactly one resolver invocation per fetched row. -/
theorem build_keys_exact_fetch (docs : String → Doc) (cat : Catalog)
    (locale region : String)
    (hl : locale ∈ SUPPORTED_LANGUAGES) (hr : region ∈ SUPPORTED_REGIONS) :
    (∀ m tr, get_camouflage_translation_mapping docs cat locale region = (.ok m, tr) →
      (∀ k, containsKey m k = true ↔
        k ∈ (fetchRows cat "camouflage" region).map Row.entity_id) ∧
      tr.resolves = (fetchRows cat "camouflage" region).length) ∧
    (∀ m tr, get_weapon_translation_mapping docs cat locale region = (.ok m, tr) →
      (∀ k, containsKey m k = true ↔
        k ∈ (fetchRows cat "weapon" region).map Row.entity_id) ∧
      tr.resolves = (fetchRows cat "weapon" region).length) ∧
    (∀ m tr, get_body_skin_translation_mapping docs cat locale region = (.ok m, tr) →
      (∀ k, containsKey m k = true ↔
        k ∈ (fetchRows cat "appearance" region).map Row.entity_id) ∧
      tr.resolves = (fetchRows cat "appearance" region).length) ∧
    (∀ m tr, get_gear_translation_mapping docs cat locale region = (.ok m, tr) →
      (∀ k, containsKey m k = true ↔
        k ∈ (fetchRows cat "equipment" region).map Row.entity_id) ∧
      tr.resolves = (fetchRows cat "equipment" region).length) := by
  have hguard : ¬(locale ∉ SUPPORTED_LANGUAGES ∨ region ∉ SUPPORTED_REGIONS) := by
    push_neg
    exact ⟨hl, hr⟩
  have hlocale : ¬(locale ∉ SUPPORTED_LANGUAGES) := fun hc => hc hl
  refine ⟨?_, ?_, ?_, ?_⟩
  · intro m tr h
    rw [get_camouflage_translation_mapping, if_neg hguard] at h
    injection h with h1 h2
    obtain ⟨hkeys, hlen⟩ := buildLoop_ok_spec _ _ _ _ _ (by rw [← h1])
    refine ⟨fun k => by simpa [containsKey] using hkeys k, ?_⟩
    rw [← h2]
    simpa using hlen
  · intro m tr h
    rw [get_weapon_translation_mapping, if_neg hguard] at h
    injection h with h1 h2
    obtain ⟨hkeys, hlen⟩ := buildLoop_ok_spec _ _ _ _ _ (by rw [← h1])
    refine ⟨fun k => by simpa [containsKey] using hkeys k, ?_⟩
    rw [← h2]
    simpa using hlen
  · intro m tr h
    rw [get_body_skin_translation_mapping, if_neg hguard] at h
    injection h with h1 h2
    obtain ⟨hkeys, hlen⟩ := buildLoop_ok_spec _ _ _ _ _ (by rw [← h1])
    refine ⟨fun k => by simpa [containsKey] using hkeys k, ?_⟩
    rw [← h2]
    simpa using hlen
  · intro m tr h
    rw [get_gear_translation_mapping, if_neg hlocale] at h
    injection h with h1 h2
    obtain ⟨hkeys, hlen⟩ := buildLoop_ok_spec _ _ _ _ _ (by rw [← h1])
    refine ⟨fun k => by simpa [containsKey] using hkeys k, ?_⟩
    rw [← h2]
    simpa using hlen

/-- Concrete instantiation of `build_keys_exact_fetch`: the camouflage
builder on the sample catalog produces exactly the key 101 with one resolver
invocation. -/
theorem build_keys_exact_fetch_witness :
    (∀ k, containsKey [(101, ["sr47_jungle", "SR-47 Jungle"])] k = true ↔
      k ∈ (fetchRows sampleCatalog "camouflage" "eu").map Row.entity_id) ∧
    (Trace.mk 1 1 1).resolves = (fetchRows sampleCatalog "camouflage" "eu").length :=
  (build_keys_exact_fetch enDocs sampleCatalog "en" "eu" (by decide) (by decide)).1
    [(101, ["sr47_jungle", "SR-47 Jungle"])] ⟨1, 1, 1⟩ rfl
